import Mathlib

/-!
Verification of the anyq broker-agnostic messaging core against its
specification.  The TypeScript source is shallowly embedded: JavaScript
numbers are modelled as rationals (`ℚ`) where real arithmetic matters and as
`Int`/`Nat` where the code only ever holds integers; `Date.now()` timestamps
and generated message ids are passed as explicit arguments; fallible code
returns `Except`/`Option`; mutable objects become explicit state values.
-/

namespace AnyQ

/-! ## Backoff engine (packages/core/src/utils/backoff.ts and middleware/retry.ts)

JavaScript `Math.random()` is modelled by an explicit rational argument
`rand` ranging over `[0, 1)`.  `Math.floor` is `Int.floor` on `ℚ`.
-/

/-- Retry configuration (types/config.ts `RetryConfig`); `retryableErrors`
is kept abstract and does not appear here because the backoff computation
never reads it. -/
structure RetryConfig where
  maxRetries : Nat
  initialDelayMs : ℚ
  maxDelayMs : ℚ
  multiplier : ℚ
  jitter : Bool
deriving Repr, DecidableEq

/-- Default retry configuration (types/config.ts `DEFAULT_RETRY_CONFIG`). -/
def DEFAULT_RETRY_CONFIG : RetryConfig :=
  { maxRetries := 3, initialDelayMs := 100, maxDelayMs := 10000
    multiplier := 2, jitter := true }

/-- Embedding of `applyJitter(delay, factor)` from utils/backoff.ts:
`jitterRange = delay * factor; jitter = Math.random() * jitterRange * 2 -
jitterRange; return Math.max(0, delay + jitter)`.  `rand` stands for the
`Math.random()` draw. -/
def applyJitter (delay factor rand : ℚ) : ℚ :=
  let jitterRange := delay * factor
  let jitter := rand * jitterRange * 2 - jitterRange
  max 0 (delay + jitter)

/-- Options for the standalone backoff calculators (utils/backoff.ts
`BackoffOptions` after the defaults from `DEFAULT_RETRY_CONFIG` are
applied). -/
structure BackoffOptions where
  initialDelayMs : ℚ := DEFAULT_RETRY_CONFIG.initialDelayMs
  maxDelayMs : ℚ := DEFAULT_RETRY_CONFIG.maxDelayMs
  multiplier : ℚ := DEFAULT_RETRY_CONFIG.multiplier
  jitter : Bool := DEFAULT_RETRY_CONFIG.jitter
  jitterFactor : ℚ := 1/4
deriving Repr, DecidableEq

/-- Embedding of `exponentialBackoff(attempt, options)` from
utils/backoff.ts: the uncapped delay is `initialDelayMs *
multiplier^(attempt-1)`, then `Math.min` with `maxDelayMs`, then jitter,
then `Math.floor`. -/
def exponentialBackoff (attempt : Nat) (o : BackoffOptions) (rand : ℚ) : ℤ :=
  let delay := o.initialDelayMs * o.multiplier ^ (attempt - 1)
  let delay := min delay o.maxDelayMs
  let delay := if o.jitter then applyJitter delay o.jitterFactor rand else delay
  Int.floor delay

/-- Embedding of `linearBackoff` (utils/backoff.ts); the `multiplier` field
is reinterpreted as the per-attempt increment (its standalone default there
is 1000, supplied by the caller of this model). -/
def linearBackoff (attempt : Nat) (o : BackoffOptions) (rand : ℚ) : ℤ :=
  let delay := o.initialDelayMs + ((attempt : ℚ) - 1) * o.multiplier
  let delay := min delay o.maxDelayMs
  let delay := if o.jitter then applyJitter delay o.jitterFactor rand else delay
  Int.floor delay

/-- Embedding of `constantBackoff` (utils/backoff.ts): the delay is
`initialDelayMs`, never capped by `maxDelayMs`. -/
def constantBackoff (o : BackoffOptions) (rand : ℚ) : ℤ :=
  let delay := o.initialDelayMs
  let delay := if o.jitter then applyJitter delay o.jitterFactor rand else delay
  Int.floor delay

/-- Embedding of the private `fibonacci(n)` helper of utils/backoff.ts:
`fib(n) = 1` for `n ≤ 1` (hence `fib 1 = fib 2 = 1`). -/
def fibonacci : Nat → ℚ
  | 0 => 1
  | 1 => 1
  | 2 => 1
  | n + 2 => fibonacci (n + 1) + fibonacci n

/-- Embedding of `fibonacciBackoff` (utils/backoff.ts). -/
def fibonacciBackoff (attempt : Nat) (o : BackoffOptions) (rand : ℚ) : ℤ :=
  let delay := o.initialDelayMs * fibonacci attempt
  let delay := min delay o.maxDelayMs
  let delay := if o.jitter then applyJitter delay o.jitterFactor rand else delay
  Int.floor delay

/-- Backoff strategy tag (utils/backoff.ts `BackoffStrategy`); `none`
models an absent `strategy` option (the code then defaults to
exponential). -/
inductive BackoffStrategy
  | exponential
  | linear
  | constant
  | fibonacci
deriving Repr, DecidableEq

/-- Embedding of `calculateDelay(attempt, options)` (utils/backoff.ts):
dispatch on `options.strategy ?? 'exponential'`. -/
def calculateDelay (strategy : Option BackoffStrategy) (attempt : Nat)
    (o : BackoffOptions) (rand : ℚ) : ℤ :=
  match strategy.getD .exponential with
  | .exponential => exponentialBackoff attempt o rand
  | .linear => linearBackoff attempt o rand
  | .constant => constantBackoff o rand
  | .fibonacci => fibonacciBackoff attempt o rand

/-- Embedding of `calculateBackoff(attempt, config)` from
middleware/retry.ts (the copy of the exponential computation used by the
retry engine): exponential delay, capped, then ±25% jitter, floored. -/
def calculateBackoff (attempt : Nat) (c : RetryConfig) (rand : ℚ) : ℤ :=
  let exponentialDelay := c.initialDelayMs * c.multiplier ^ (attempt - 1)
  let delay := min exponentialDelay c.maxDelayMs
  let delay :=
    if c.jitter then
      let jitterRange := delay * (1/4)
      let jitter := rand * jitterRange * 2 - jitterRange
      max 0 (delay + jitter)
    else delay
  Int.floor delay

/-! ## Retry engine (packages/core/src/middleware/retry.ts `withRetry`)

The operation is a state transformer `op : σ → Except ε α × σ` (the same
thunk is called on every attempt; its changing behaviour across attempts
lives in `σ`).  The abort signal of the source is absent (`signal`
unset), so the `signal?.aborted` checks are constant-false.  Sleeping has
no observable effect beyond the recorded delay.  The recorded
`RetryAttempt` values passed to `onRetry` let theorems speak about the
callback without modelling effects. -/

/-- Argument record handed to the `onRetry` callback
(middleware/retry.ts `RetryAttempt`, with the error kept abstract). -/
structure RetryAttempt (ε : Type) where
  attempt : Nat
  maxAttempts : Nat
  delayMs : ℤ
  error : ε
deriving Repr, DecidableEq

/-- Result of a `withRetry` run: the outcome, the final operation state,
the number of times the operation was invoked, and the `RetryAttempt`
records passed to `onRetry`, in call order. -/
structure RetryRun (σ ε α : Type) where
  result : Except ε α
  state : σ
  attemptsMade : Nat
  onRetryCalls : List (RetryAttempt ε)

/-- One loop iteration of `withRetry` starting at attempt number
`attempt` with `remaining` loop iterations left (`remaining` is
`totalAttempts - attempt + 1`; it exists only to show termination and the
two counters move in lockstep).  Mirrors the `for` loop body: run the
operation; on error decide `shouldRetry = !isLastAttempt && isRetryable`,
rethrow when false, otherwise compute the backoff delay, record the
`onRetry` call with `attempt + 1`, sleep, and continue. -/
def withRetryGo [Inhabited ε] (c : RetryConfig) (retryable : ε → Bool)
    (op : σ → Except ε α × σ) (rand : Nat → ℚ) (totalAttempts : Nat) :
    Nat → Nat → σ → List (RetryAttempt ε) → Nat → RetryRun σ ε α
  | _, 0, st, calls, made =>
    -- unreachable for well-formed inputs (the loop always exits by return/throw)
    { result := .error default, state := st
      attemptsMade := made, onRetryCalls := calls.reverse }
  | attempt, remaining + 1, st, calls, made =>
    match op st with
    | (.ok a, st1) =>
      { result := .ok a, state := st1, attemptsMade := made + 1
        onRetryCalls := calls.reverse }
    | (.error e, st1) =>
      let isLastAttempt := decide (totalAttempts ≤ attempt)
      let shouldRetry := !isLastAttempt && retryable e
      if shouldRetry then
        let delayMs := calculateBackoff attempt c (rand attempt)
        let call : RetryAttempt ε :=
          { attempt := attempt + 1, maxAttempts := totalAttempts
            delayMs := delayMs, error := e }
        withRetryGo c retryable op rand totalAttempts
          (attempt + 1) remaining st1 (call :: calls) (made + 1)
      else
        { result := .error e, state := st1, attemptsMade := made + 1
          onRetryCalls := calls.reverse }

/-- Embedding of `withRetry(operation, options)` (middleware/retry.ts):
`totalAttempts = maxRetries + 1` loop iterations starting at attempt 1.
`retryable` stands for the `isRetryable` predicate in force (the option or
the `isRetryableError` default partially applied to
`config.retryableErrors`); `rand` supplies the `Math.random()` draw used
by `calculateBackoff` at each attempt.  Requires a nonempty error type as
the source language does. -/
def withRetry [Inhabited ε] (c : RetryConfig) (retryable : ε → Bool)
    (op : σ → Except ε α × σ) (rand : Nat → ℚ) (st : σ) : RetryRun σ ε α :=
  let totalAttempts := c.maxRetries + 1
  withRetryGo c retryable op rand totalAttempts 1 totalAttempts st [] 0

/-! ## Circuit breaker (packages/core/src/middleware/circuit-breaker.ts)

`Date.now()` is the explicit argument `now` (a single `execute` call is
modelled at one instant).  The wrapped operation is a state transformer;
`CBResult.circuitOpen` is the `CircuitOpenError` fast-fail path. -/

/-- Circuit breaker configuration (types/config.ts
`CircuitBreakerConfig`). -/
structure CircuitBreakerConfig where
  enabled : Bool
  failureThreshold : Nat
  failureWindow : ℤ
  resetTimeout : ℤ
  successThreshold : Nat
deriving Repr, DecidableEq

/-- Default circuit breaker configuration (types/config.ts
`DEFAULT_CIRCUIT_BREAKER_CONFIG`). -/
def DEFAULT_CIRCUIT_BREAKER_CONFIG : CircuitBreakerConfig :=
  { enabled := false, failureThreshold := 5, failureWindow := 60000
    resetTimeout := 30000, successThreshold := 2 }

/-- Circuit breaker FSM state (`CircuitState`). -/
inductive CircuitState
  | closed
  | open
  | halfOpen
deriving Repr, DecidableEq

/-- Mutable fields of a `CircuitBreaker` instance. -/
structure CircuitBreaker where
  state : CircuitState
  failures : List ℤ
  successes : Nat
  lastFailureTime : Option ℤ
  totalRequests : Nat
  totalFailures : Nat
deriving Repr, DecidableEq

/-- Freshly constructed breaker (field initializers of the class). -/
def CircuitBreaker.init : CircuitBreaker :=
  { state := .closed, failures := [], successes := 0
    lastFailureTime := none, totalRequests := 0, totalFailures := 0 }

/-- Embedding of the private `cleanOldFailures()`: drop failure
timestamps `t` with `t ≤ now - failureWindow`. -/
def cleanOldFailures (cfg : CircuitBreakerConfig) (now : ℤ)
    (cb : CircuitBreaker) : CircuitBreaker :=
  { cb with failures := cb.failures.filter (fun t => now - cfg.failureWindow < t) }

/-- Embedding of the private `shouldAttemptReset()`.  The guard
`if (!this.lastFailureTime) return true` is a JavaScript truthiness
check: it fires both when `lastFailureTime` is `undefined` and when it
is the number `0`, so a last failure recorded at epoch millisecond 0 is
treated as unset and the reset is attempted immediately. -/
def shouldAttemptReset (cfg : CircuitBreakerConfig) (now : ℤ)
    (cb : CircuitBreaker) : Bool :=
  match cb.lastFailureTime with
  | none => true
  | some t => if t = 0 then true else decide (cfg.resetTimeout ≤ now - t)

/-- Embedding of the private `onSuccess()`. -/
def CircuitBreaker.onSuccess (cfg : CircuitBreakerConfig)
    (cb : CircuitBreaker) : CircuitBreaker :=
  match cb.state with
  | .halfOpen =>
    let successes := cb.successes + 1
    if cfg.successThreshold ≤ successes then
      { cb with state := .closed, failures := [], successes := 0 }
    else
      { cb with successes := successes }
  | .closed => { cb with successes := 0 }
  | .open => cb

/-- Embedding of the private `onFailure()`: push `now`, update
`lastFailureTime` and `totalFailures`; a half-open failure trips the
circuit, a closed breaker trips once the cleaned window holds at least
`failureThreshold` entries. -/
def CircuitBreaker.onFailure (cfg : CircuitBreakerConfig) (now : ℤ)
    (cb : CircuitBreaker) : CircuitBreaker :=
  let cb := { cb with failures := cb.failures ++ [now]
                      lastFailureTime := some now
                      totalFailures := cb.totalFailures + 1 }
  match cb.state with
  | .halfOpen => { cb with state := .open, successes := 0 }
  | .closed =>
    let cb := cleanOldFailures cfg now cb
    if cfg.failureThreshold ≤ cb.failures.length then
      { cb with state := .open }
    else cb
  | .open => cb

/-- Outcome of one `CircuitBreaker.execute` call. -/
inductive CBResult (ε α : Type)
  | ok (a : α)
  | opError (e : ε)
  | circuitOpen
deriving Repr, DecidableEq

/-- Embedding of `CircuitBreaker.execute(operation)`: when disabled the
operation runs untouched; otherwise the request counter is bumped, old
failures are pruned, an open breaker either fast-fails with
`CircuitOpenError` or (after `resetTimeout`) moves to half-open with the
success streak reset, and the operation outcome feeds
`onSuccess`/`onFailure`.  Returns the call outcome, the operation state
(unchanged exactly when the operation was not invoked) and the new
breaker. -/
def CircuitBreaker.execute (cfg : CircuitBreakerConfig) (cb : CircuitBreaker)
    (now : ℤ) (op : σ → Except ε α × σ) (st : σ) :
    CBResult ε α × σ × CircuitBreaker :=
  if !cfg.enabled then
    match op st with
    | (.ok a, st1) => (.ok a, st1, cb)
    | (.error e, st1) => (.opError e, st1, cb)
  else
    let cb := { cb with totalRequests := cb.totalRequests + 1 }
    let cb := cleanOldFailures cfg now cb
    match cb.state with
    | .open =>
      if shouldAttemptReset cfg now cb then
        let cb := { cb with state := .halfOpen, successes := 0 }
        match op st with
        | (.ok a, st1) => (.ok a, st1, cb.onSuccess cfg)
        | (.error e, st1) => (.opError e, st1, cb.onFailure cfg now)
      else
        (.circuitOpen, st, cb)
    | _ =>
      match op st with
      | (.ok a, st1) => (.ok a, st1, cb.onSuccess cfg)
      | (.error e, st1) => (.opError e, st1, cb.onFailure cfg now)

/-! ## In-memory queue (packages/memory/src/queue.ts `MemoryQueue`)

Generated message ids (`generateMessageId()`) and `Date.now()` /
`new Date()` instants are explicit arguments.  The in-flight `Map` is an
association list with unique keys (`procSet` replaces like `Map.set`;
iteration order is never observed by the embedded operations). -/

/-- Stored message record (queue.ts `StoredMessage<T>`); the timestamp is
epoch milliseconds. -/
structure StoredMessage (β : Type) where
  id : String
  body : β
  key : Option String
  headers : List (String × String)
  timestamp : ℤ
  deliveryAttempt : Nat
  acknowledged : Bool
  requeued : Bool
  deadLettered : Bool
deriving Repr, DecidableEq

/-- State and construction options of a `MemoryQueue` instance
(`maxMessages`/`maxAgeMs` default to 0 = unlimited). -/
structure MemoryQueue (β : Type) where
  messages : List (StoredMessage β)
  processing : List (String × StoredMessage β)
  queueName : String
  maxMessages : Nat
  maxAgeMs : ℤ
deriving Repr, DecidableEq

/-- Fresh queue for a name and options (the constructor). -/
def MemoryQueue.mk0 (name : String) (maxMessages : Nat := 0)
    (maxAgeMs : ℤ := 0) : MemoryQueue β :=
  { messages := [], processing := [], queueName := name
    maxMessages := maxMessages, maxAgeMs := maxAgeMs }

/-- JavaScript `Map.set`: replace the value under an existing key, else
append the binding. -/
def procSet (l : List (String × StoredMessage β)) (id : String)
    (m : StoredMessage β) : List (String × StoredMessage β) :=
  if (l.lookup id).isSome then
    l.map (fun kv => if kv.1 = id then (id, m) else kv)
  else
    l ++ [(id, m)]

/-- JavaScript `Map.delete` on the in-flight map. -/
def procDelete (l : List (String × StoredMessage β)) (id : String) :
    List (String × StoredMessage β) :=
  l.filter (fun kv => kv.1 ≠ id)

/-- Embedding of the private `cleanup()`: when `maxAgeMs > 0`, keep only
messages with `now - timestamp < maxAgeMs`. -/
def MemoryQueue.cleanup (now : ℤ) (q : MemoryQueue β) : MemoryQueue β :=
  if q.maxAgeMs ≤ 0 then q
  else
    { q with
      messages := q.messages.filter (fun m => now - m.timestamp < q.maxAgeMs) }

/-- Embedding of `enqueue(body, options)`: cleanup, append a fresh stored
message (`deliveryAttempt = 0`, flags false) with the supplied generated
`id` and timestamp `now`, then drop the head once if `maxMessages` is
positive and exceeded.  Returns the id and the new queue. -/
def MemoryQueue.enqueue (q : MemoryQueue β) (body : β) (id : String)
    (now : ℤ) (key : Option String := none)
    (headers : List (String × String) := []) : String × MemoryQueue β :=
  let q := q.cleanup now
  let message : StoredMessage β :=
    { id := id, body := body, key := key, headers := headers
      timestamp := now, deliveryAttempt := 0, acknowledged := false
      requeued := false, deadLettered := false }
  let msgs := q.messages ++ [message]
  let msgs :=
    if 0 < q.maxMessages ∧ q.maxMessages < msgs.length then msgs.tail else msgs
  (id, { q with messages := msgs })

/-- Embedding of `dequeue()`: cleanup, shift the head, increment its
`deliveryAttempt`, move it into the in-flight map. -/
def MemoryQueue.dequeue (q : MemoryQueue β) (now : ℤ) :
    Option (StoredMessage β) × MemoryQueue β :=
  let q := q.cleanup now
  match q.messages with
  | [] => (none, q)
  | m :: rest =>
    let m := { m with deliveryAttempt := m.deliveryAttempt + 1 }
    (some m, { q with messages := rest, processing := procSet q.processing m.id m })

/-- Embedding of `ack(messageId)`: drop the message from the in-flight
map when present (the `acknowledged := true` flag is set on an object
that is dropped with it); `false` and no change otherwise. -/
def MemoryQueue.ack (q : MemoryQueue β) (messageId : String) :
    Bool × MemoryQueue β :=
  match q.processing.lookup messageId with
  | none => (false, q)
  | some _ => (true, { q with processing := procDelete q.processing messageId })

/-- Embedding of `nack(messageId, requeue)`: remove from the in-flight
map; when `requeue`, mark the message requeued and prepend it to the
stored sequence. -/
def MemoryQueue.nack (q : MemoryQueue β) (messageId : String)
    (requeue : Bool := true) : Bool × MemoryQueue β :=
  match q.processing.lookup messageId with
  | none => (false, q)
  | some m =>
    let q := { q with processing := procDelete q.processing messageId }
    if requeue then
      (true, { q with messages := { m with requeued := true } :: q.messages })
    else
      (true, q)

/-- Embedding of `deadLetter(messageId, dlq, error?)`: remove from the
in-flight map and enqueue the body onto `dlq` with the augmented headers
(object spread, so the four `x-` keys override existing ones).  `newId`
and `now` stand for the id generation and timestamps of the nested
`enqueue`; `errMsg` is `error?.message`. -/
def MemoryQueue.deadLetter (q : MemoryQueue β) (messageId : String)
    (dlq : MemoryQueue β) (errMsg : Option String) (newId : String)
    (now : ℤ) (deathTime : String) : Bool × MemoryQueue β × MemoryQueue β :=
  match q.processing.lookup messageId with
  | none => (false, q, dlq)
  | some m =>
    let q := { q with processing := procDelete q.processing messageId }
    let special := ["x-original-queue", "x-death-reason", "x-death-time",
      "x-delivery-attempts"]
    let dlqHeaders :=
      m.headers.filter (fun kv => ¬ kv.1 ∈ special) ++
      [("x-original-queue", q.queueName),
       ("x-death-reason", errMsg.getD "max retries exceeded"),
       ("x-death-time", deathTime),
       ("x-delivery-attempts", toString m.deliveryAttempt)]
    let (_, dlq) := dlq.enqueue m.body newId now m.key dlqHeaders
    (true, q, dlq)

/-- Embedding of `size()`. -/
def MemoryQueue.size (q : MemoryQueue β) : Nat := q.messages.length

/-- Embedding of `processingCount()`. -/
def MemoryQueue.processingCount (q : MemoryQueue β) : Nat :=
  q.processing.length

/-! ## Memory consumer failure path (packages/memory/src/consumer.ts)

One `poll` tick of `MemoryConsumer.subscribe` with a handler that throws
on every invocation and the DLQ configured (so `this.dlq` is non-null):
dequeue; if empty stop; otherwise the handler throws, and the consumer
dead-letters when `stored.deliveryAttempt >= maxDeliveryAttempts`, else
nacks with requeue. -/

/-- One failing poll tick.  Returns the queue, the DLQ, and whether the
message was dead-lettered this tick. -/
def failingPoll (maxDeliveryAttempts : Nat) (errMsg : String)
    (q dlq : MemoryQueue β) (now : ℤ) (newId : String) (deathTime : String) :
    MemoryQueue β × MemoryQueue β × Bool :=
  match q.dequeue now with
  | (none, q) => (q, dlq, false)
  | (some stored, q) =>
    if maxDeliveryAttempts ≤ stored.deliveryAttempt then
      let (_, q, dlq) :=
        q.deadLetter stored.id dlq (some errMsg) newId now deathTime
      (q, dlq, true)
    else
      let (_, q) := q.nack stored.id true
      (q, dlq, false)

/-- Iterated failing polls: `failingPollIter n k` is the state after `k`
ticks, with the flag true as soon as some tick dead-lettered. -/
def failingPollIter (maxDeliveryAttempts : Nat) (errMsg : String)
    (now : ℤ) (newId : String) (deathTime : String) :
    Nat → MemoryQueue β × MemoryQueue β × Bool →
    MemoryQueue β × MemoryQueue β × Bool
  | 0, s => s
  | k + 1, (q, dlq, fired) =>
    let (q, dlq, f) :=
      failingPoll maxDeliveryAttempts errMsg q dlq now newId deathTime
    failingPollIter maxDeliveryAttempts errMsg now newId deathTime k
      (q, dlq, fired || f)

/-! ## Memory producer publish and the resilience composition
(packages/memory/src/producer.ts `MemoryProducer.publish`;
packages/core/src/base/base-adapter.ts `executeWithResilience`) -/

/-- Embedding of `MemoryProducer.publish(body, options)` on a connected
producer: a direct `enqueue` on the shared queue.  The adapter's circuit
breaker is passed through untouched because the source never consults
it. -/
def memoryPublish (q : MemoryQueue β) (cb : CircuitBreaker) (body : β)
    (id : String) (now : ℤ) (key : Option String := none)
    (headers : List (String × String) := []) :
    CBResult Unit String × MemoryQueue β × CircuitBreaker :=
  let (messageId, q) := q.enqueue body id now key headers
  (.ok messageId, q, cb)

/-- Embedding of `BaseAdapter.executeWithResilience(operation)`:
`circuitBreaker.execute(() => withRetry(operation, retryConfig))` — the
circuit breaker outermost, the retry engine inside.  The retry run is
collapsed to its outcome as the operation the breaker sees. -/
def executeWithResilience [Inhabited ε] (cbCfg : CircuitBreakerConfig)
    (rCfg : RetryConfig) (retryable : ε → Bool) (cb : CircuitBreaker)
    (now : ℤ) (rand : Nat → ℚ) (op : σ → Except ε α × σ) (st : σ) :
    CBResult ε α × σ × CircuitBreaker :=
  cb.execute cbCfg now
    (fun st => let run := withRetry rCfg retryable op rand st
               (run.result, run.state)) st

/-- Publish routed as the specification demands
(`circuit_breaker.execute(retry.execute(send))`), with the backend send
being the queue `enqueue`: stated from the spec wording to compare with
`memoryPublish`. -/
def specPublish (cbCfg : CircuitBreakerConfig) (rCfg : RetryConfig)
    (cb : CircuitBreaker) (now : ℤ) (rand : Nat → ℚ) (q : MemoryQueue β)
    (body : β) (id : String) (key : Option String := none)
    (headers : List (String × String) := []) :
    CBResult Unit String × MemoryQueue β × CircuitBreaker :=
  executeWithResilience cbCfg rCfg (fun _ => true) cb now rand
    (fun q => let (messageId, q) := MemoryQueue.enqueue q body id now key headers
              (.ok messageId, q)) q

/-! ## JSON serializer (packages/core/src/serialization/json.ts)

The serializer is modelled at the JSON-tree level: `serialize` maps a
runtime value to the JSON tree that `JSON.stringify` with the default
replacer would emit (string rendering and the `pretty` whitespace option
add nothing observable at this level), and `deserialize` maps a JSON tree
to the value `JSON.parse` with the default reviver produces.  JavaScript
numbers are `ℚ`; a `Date` is its epoch-millisecond time value, with
`invalidDate` for an `Invalid Date` (NaN time value).  Per ECMA-262,
`JSON.stringify` invokes `Date.prototype.toJSON` on a `Date` *before* the
replacer sees the property, so the replacer receives the ISO string, and
`JSON.stringify(new Date(NaN))` yields `null` because `toJSON` returns
`null` for a non-finite time value.  `JSON.parse` applies the reviver
bottom-up.  Errors thrown inside `JSON.stringify`/`JSON.parse` (which
`JsonSerializer` wraps into `SerializationError`) are `Except.error`. -/

mutual
/-- JavaScript runtime values that can reach the serializer. -/
inductive Value
  | null
  | bool (b : Bool)
  | num (q : ℚ)
  | str (s : String)
  | bigint (n : ℤ)
  | date (ms : ℤ)
  | invalidDate
  | arr (xs : ValueList)
  | obj (kvs : ValueKVs)
deriving DecidableEq
/-- List of values (array elements). -/
inductive ValueList
  | nil
  | cons (hd : Value) (tl : ValueList)
deriving DecidableEq
/-- Key/value members of an object, in property order. -/
inductive ValueKVs
  | nil
  | cons (k : String) (v : Value) (tl : ValueKVs)
deriving DecidableEq
end

mutual
/-- Parsed JSON trees (what `JSON.parse` yields before the reviver and
what `JSON.stringify` renders). -/
inductive Json
  | null
  | bool (b : Bool)
  | num (q : ℚ)
  | str (s : String)
  | arr (xs : JsonList)
  | obj (kvs : JsonKVs)
deriving DecidableEq
/-- List of JSON array elements. -/
inductive JsonList
  | nil
  | cons (hd : Json) (tl : JsonList)
deriving DecidableEq
/-- Key/value members of a JSON object. -/
inductive JsonKVs
  | nil
  | cons (k : String) (v : Json) (tl : JsonKVs)
deriving DecidableEq
end

/-- Serializer options (json.ts `JsonSerializerOptions` after the
constructor defaults; `pretty` and custom replacer/reviver are not
modelled — the claims use the defaults). -/
structure JsonSerializerOptions where
  handleBigInt : Bool := true
  handleDates : Bool := true
deriving Repr, DecidableEq

/-! ### ISO-8601 date strings

`isISODateString` in json.ts is a regex shape check
`^\d{4}-\d{2}-\d{2}T\d{2}:\d{2}:\d{2}(\.\d{3})?Z?$` followed by
`!isNaN(new Date(value).getTime())`.  For strings of that shape the
ECMAScript Date-Time-String parser accepts exactly the component ranges
below (hour 24 only as `24:00:00.000`).  A string without the trailing
`Z` denotes local wall-clock time; the model takes the host timezone as
an explicit `tz` argument, the milliseconds added to a timezone-less
reading to obtain UTC. -/

/-- Components of a string matching the ISO shape. -/
structure ISOParts where
  year : Nat
  month : Nat
  day : Nat
  hour : Nat
  minute : Nat
  second : Nat
  millis : Nat
  hasZ : Bool
deriving Repr, DecidableEq

/-- Decimal digit value of a character, when it is one. -/
def digitVal (c : Char) : Option Nat :=
  if c.isDigit then some (c.toNat - 48) else none

/-- Two-digit decimal number. -/
def num2 (a b : Char) : Option Nat := do
  let a ← digitVal a
  let b ← digitVal b
  pure (a * 10 + b)

/-- Four-digit decimal number. -/
def num4 (a b c d : Char) : Option Nat := do
  let hi ← num2 a b
  let lo ← num2 c d
  pure (hi * 100 + lo)

/-- Shape parser for the regex
`^\d{4}-\d{2}-\d{2}T\d{2}:\d{2}:\d{2}(\.\d{3})?Z?$`. -/
def parseISO (s : String) : Option ISOParts :=
  match s.toList with
  | y1 :: y2 :: y3 :: y4 :: '-' :: m1 :: m2 :: '-' :: d1 :: d2 :: 'T' ::
    h1 :: h2 :: ':' :: n1 :: n2 :: ':' :: s1 :: s2 :: rest => do
    let year ← num4 y1 y2 y3 y4
    let month ← num2 m1 m2
    let day ← num2 d1 d2
    let hour ← num2 h1 h2
    let minute ← num2 n1 n2
    let second ← num2 s1 s2
    let base : ISOParts :=
      { year := year, month := month, day := day, hour := hour
        minute := minute, second := second, millis := 0, hasZ := false }
    match rest with
    | [] => pure base
    | ['Z'] => pure { base with hasZ := true }
    | '.' :: a :: b :: c :: rest2 => do
      let hi ← digitVal a
      let mid ← digitVal b
      let lo ← digitVal c
      let ms := hi * 100 + mid * 10 + lo
      match rest2 with
      | [] => pure { base with millis := ms }
      | ['Z'] => pure { base with millis := ms, hasZ := true }
      | _ => none
    | _ => none
  | _ => none

/-- Gregorian leap year. -/
def isLeapYear (y : Nat) : Bool :=
  (y % 4 = 0 && y % 100 ≠ 0) || y % 400 = 0

/-- Days in a month. -/
def daysInMonth (y m : Nat) : Nat :=
  if m = 2 then (if isLeapYear y then 29 else 28)
  else if m = 4 ∨ m = 6 ∨ m = 9 ∨ m = 11 then 30
  else 31

/-- Component-range validity: the `!isNaN(new Date(value).getTime())`
check of json.ts for shape-matching strings. -/
def validParts (p : ISOParts) : Bool :=
  (1 ≤ p.month && p.month ≤ 12) &&
  (1 ≤ p.day && p.day ≤ daysInMonth p.year p.month) &&
  ((p.hour ≤ 23 && p.minute ≤ 59 && p.second ≤ 59) ||
   (p.hour = 24 && p.minute = 0 && p.second = 0 && p.millis = 0))

/-- Embedding of `isISODateString(value)` from json.ts. -/
def isISODateString (s : String) : Bool :=
  match parseISO s with
  | some p => validParts p
  | none => false

/-- Days from the epoch 1970-01-01 of a civil date
(Howard Hinnant's `days_from_civil`, floor divisions). -/
def daysFromCivil (y : ℤ) (m d : Nat) : ℤ :=
  let y := y - (if m ≤ 2 then 1 else 0)
  let era := y.fdiv 400
  let yoe := y - era * 400
  let mp : ℤ := (m : ℤ) + (if 2 < m then -3 else 9)
  let doy := (153 * mp + 2).fdiv 5 + (d : ℤ) - 1
  let doe := yoe * 365 + yoe.fdiv 4 - yoe.fdiv 100 + doy
  era * 146097 + doe - 719468

/-- Civil date from days since the epoch
(Howard Hinnant's `civil_from_days`). -/
def civilFromDays (z : ℤ) : ℤ × ℤ × ℤ :=
  let z := z + 719468
  let era := z.fdiv 146097
  let doe := z - era * 146097
  let yoe := (doe - doe.fdiv 1460 + doe.fdiv 36524 - doe.fdiv 146096).fdiv 365
  let y := yoe + era * 400
  let doy := doe - (365 * yoe + yoe.fdiv 4 - yoe.fdiv 100)
  let mp := (5 * doy + 2).fdiv 153
  let d := doy - (153 * mp + 2).fdiv 5 + 1
  let m := mp + (if mp < 10 then 3 else -9)
  (y + (if m ≤ 2 then 1 else 0), m, d)

/-- UTC epoch milliseconds of parsed components; a string without `Z` is
local wall-clock time and `tz` is added to reach UTC. -/
def msOfParts (tz : ℤ) (p : ISOParts) : ℤ :=
  let days := daysFromCivil p.year p.month p.day
  let wall := ((days * 24 + p.hour) * 60 + p.minute) * 60 + p.second
  let wall := wall * 1000 + p.millis
  if p.hasZ then wall else wall + tz

/-- Left-pad a decimal rendering with zeros. -/
def padNum (width : Nat) (n : ℤ) : String :=
  let s := toString n.natAbs
  let s := String.mk (List.replicate (width - s.length) '0') ++ s
  if n < 0 then "-" ++ s else s

/-- Embedding of `Date.prototype.toISOString` for time values whose year
lies in 0000–9999 (the expanded ±YYYYYY year format for values outside
that range is not needed by the claims and is rendered with more digits
here). -/
def toISOString (ms : ℤ) : String :=
  let days := ms.fdiv 86400000
  let msInDay := ms.fmod 86400000
  let (y, m, d) := civilFromDays days
  let hh := msInDay.fdiv 3600000
  let mi := (msInDay.fdiv 60000).fmod 60
  let ss := (msInDay.fdiv 1000).fmod 60
  let mmm := msInDay.fmod 1000
  padNum 4 y ++ "-" ++ padNum 2 m ++ "-" ++ padNum 2 d ++ "T" ++
    padNum 2 hh ++ ":" ++ padNum 2 mi ++ ":" ++ padNum 2 ss ++ "." ++
    padNum 3 mmm ++ "Z"

/-! ### Serialization (`JsonSerializer.serialize` with `defaultReplacer`)

A `bigint` is replaced by `{ __type: 'bigint', value: n.toString() }`
when `handleBigInt` is on, else `JSON.stringify` throws.  A `Date` is
turned into its ISO string by `toJSON` before the replacer runs, so the
replacer's `value instanceof Date` branch never fires and the emitted
JSON is the plain string regardless of `handleDates`. -/

/-- The replacement object for a big integer. -/
def taggedBigInt (n : ℤ) : Json :=
  .obj (.cons "__type" (.str "bigint") (.cons "value" (.str (toString n)) .nil))

mutual
/-- JSON tree emitted by `JSON.stringify(value, defaultReplacer(options))`. -/
def serializeV (o : JsonSerializerOptions) : Value → Except String Json
  | .null => .ok .null
  | .bool b => .ok (.bool b)
  | .num q => .ok (.num q)
  | .str s => .ok (.str s)
  | .bigint n =>
    if o.handleBigInt then .ok (taggedBigInt n)
    else .error "TypeError: Do not know how to serialize a BigInt"
  | .date ms => .ok (.str (toISOString ms))
  | .invalidDate => .ok .null
  | .arr xs =>
    match serializeL o xs with
    | .ok js => .ok (.arr js)
    | .error e => .error e
  | .obj kvs =>
    match serializeKV o kvs with
    | .ok js => .ok (.obj js)
    | .error e => .error e
/-- Elementwise serialization of array members. -/
def serializeL (o : JsonSerializerOptions) : ValueList → Except String JsonList
  | .nil => .ok .nil
  | .cons v tl =>
    match serializeV o v with
    | .error e => .error e
    | .ok j =>
      match serializeL o tl with
      | .error e => .error e
      | .ok js => .ok (.cons j js)
/-- Memberwise serialization of object properties. -/
def serializeKV (o : JsonSerializerOptions) : ValueKVs → Except String JsonKVs
  | .nil => .ok .nil
  | .cons k v tl =>
    match serializeV o v with
    | .error e => .error e
    | .ok j =>
      match serializeKV o tl with
      | .error e => .error e
      | .ok js => .ok (.cons k j js)
end

/-! ### Deserialization (`JsonSerializer.deserialize` with
`defaultReviver`), reviver applied bottom-up as `JSON.parse` does. -/

/-- Property lookup on revived object members (first match; `JSON.parse`
already deduplicated keys). -/
def kvLookup (kvs : ValueKVs) (key : String) : Option Value :=
  match kvs with
  | .nil => none
  | .cons k v tl => if k = key then some v else kvLookup tl key

/-- Whitespace for StringToBigInt trimming. -/
def isJsSpace (c : Char) : Bool :=
  c = ' ' || c = '\t' || c = '\n' || c = '\r'

/-- StringToBigInt: trimmed empty string is 0; an optional sign followed
by decimal digits; other strings (the 0x/0o/0b radix forms are not
modelled — the claims never produce them) fail, and failure makes
`BigInt(string)` throw. -/
def strToBigInt (s : String) : Option ℤ :=
  let t := ((s.toList.dropWhile isJsSpace).reverse.dropWhile isJsSpace).reverse
  if t = [] then some 0
  else
    let (sign, ds) : ℤ × List Char :=
      match t with
      | '-' :: rest => (-1, rest)
      | '+' :: rest => (1, rest)
      | l => (1, l)
    if ds ≠ [] ∧ ds.all Char.isDigit then
      some (sign * (ds.foldl (fun acc c => acc * 10 + (c.toNat - 48)) 0 : ℕ))
    else none

/-- Truncation toward zero (ECMAScript ToIntegerOrInfinity on a finite
number). -/
def ratTrunc (q : ℚ) : ℤ :=
  if 0 ≤ q then Int.floor q else Int.ceil q

/-- Behaviour of `BigInt(x)` on a revived property value.  Arrays are
approximated by an error although `BigInt` on an array coerces through
its joined string (the claims never reach that corner); plain objects
genuinely throw via `"[object Object]"`. -/
def jsBigInt : Option Value → Except String Value
  | some (.str s) =>
    match strToBigInt s with
    | some n => .ok (.bigint n)
    | none => .error "SyntaxError: Cannot convert string to a BigInt"
  | some (.bigint n) => .ok (.bigint n)
  | some (.bool b) => .ok (.bigint (cond b 1 0))
  | some (.num q) =>
    if q.den = 1 then .ok (.bigint q.num)
    else .error "RangeError: The number is not a safe integer"
  | some (.date ms) => .ok (.bigint ms)
  | some .invalidDate => .error "RangeError: NaN cannot be converted to a BigInt"
  | some .null => .error "TypeError: Cannot convert null to a BigInt"
  | some (.arr _) => .error "unmodelled ToPrimitive coercion of an array"
  | some (.obj _) => .error "SyntaxError: Cannot convert [object Object] to a BigInt"
  | none => .error "TypeError: Cannot convert undefined to a BigInt"

/-- Behaviour of `new Date(x)` on a revived property value.  Non-ISO
string fallbacks and ToPrimitive coercion of arrays/objects are
implementation-defined in JavaScript and modelled as an invalid date
(the claims only reach the ISO branch). -/
def jsNewDate (tz : ℤ) : Option Value → Except String Value
  | some (.str s) =>
    .ok (match parseISO s with
         | some p => if validParts p then .date (msOfParts tz p) else .invalidDate
         | none => .invalidDate)
  | some (.date ms) => .ok (.date ms)
  | some .invalidDate => .ok .invalidDate
  | some (.num q) =>
    let t := ratTrunc q
    .ok (if t.natAbs ≤ 8640000000000000 then .date t else .invalidDate)
  | some (.bool b) => .ok (.date (cond b 1 0))
  | some .null => .ok (.date 0)
  | some (.bigint _) => .error "TypeError: Cannot convert a BigInt to a number"
  | some (.arr _) => .ok .invalidDate
  | some (.obj _) => .ok .invalidDate
  | none => .ok .invalidDate

/-- Reviver action on a string value: an ISO-looking string becomes a
`Date` when `handleDates` is on. -/
def reviveString (o : JsonSerializerOptions) (tz : ℤ) (s : String) : Value :=
  if o.handleDates && isISODateString s then
    match parseISO s with
    | some p => .date (msOfParts tz p)
    | none => .str s
  else .str s

/-- Reviver action on an object whose members are already revived: the
`__type` envelope dispatch of `defaultReviver` (bigint first, then date,
else the object is left as is). -/
def reviveObjStep (o : JsonSerializerOptions) (tz : ℤ) (kvs : ValueKVs) :
    Except String Value :=
  match kvLookup kvs "__type" with
  | some (.str t) =>
    if o.handleBigInt && t = "bigint" then jsBigInt (kvLookup kvs "value")
    else if o.handleDates && t = "date" then jsNewDate tz (kvLookup kvs "value")
    else .ok (.obj kvs)
  | _ => .ok (.obj kvs)

mutual
/-- Value produced by `JSON.parse(text, defaultReviver(options))` from a
JSON tree, reviver applied bottom-up. -/
def reviveJ (o : JsonSerializerOptions) (tz : ℤ) : Json → Except String Value
  | .null => .ok .null
  | .bool b => .ok (.bool b)
  | .num q => .ok (.num q)
  | .str s => .ok (reviveString o tz s)
  | .arr xs =>
    match reviveL o tz xs with
    | .ok vs => .ok (.arr vs)
    | .error e => .error e
  | .obj kvs =>
    match reviveKV o tz kvs with
    | .ok vs => reviveObjStep o tz vs
    | .error e => .error e
/-- Elementwise revival of array members. -/
def reviveL (o : JsonSerializerOptions) (tz : ℤ) :
    JsonList → Except String ValueList
  | .nil => .ok .nil
  | .cons j tl =>
    match reviveJ o tz j with
    | .error e => .error e
    | .ok v =>
      match reviveL o tz tl with
      | .error e => .error e
      | .ok vs => .ok (.cons v vs)
/-- Memberwise revival of object properties. -/
def reviveKV (o : JsonSerializerOptions) (tz : ℤ) :
    JsonKVs → Except String ValueKVs
  | .nil => .ok .nil
  | .cons k j tl =>
    match reviveJ o tz j with
    | .error e => .error e
    | .ok v =>
      match reviveKV o tz tl with
      | .error e => .error e
      | .ok vs => .ok (.cons k v vs)
end

/-- Serialize-then-deserialize composition
(`deserialize(serialize(x))`). -/
def jsonRoundtrip (o : JsonSerializerOptions) (tz : ℤ) (v : Value) :
    Except String Value :=
  match serializeV o v with
  | .ok j => reviveJ o tz j
  | .error e => .error e

/-- Enqueue a list of body/generated-id pairs in order at one instant. -/
def enqueueAll (now : ℤ) (q : MemoryQueue β) : List (β × String) → MemoryQueue β
  | [] => q
  | (b, id) :: rest => enqueueAll now (q.enqueue b id now).2 rest

/-- The stored record `enqueue` creates for a body (no key, no headers). -/
def mkStored (b : β) (id : String) (now : ℤ) : StoredMessage β :=
  { id := id, body := b, key := none, headers := [], timestamp := now
    deliveryAttempt := 0, acknowledged := false, requeued := false
    deadLettered := false }

/-- The sequence of `RetryAttempt` records an always-failing retryable
run hands to `onRetry`, starting at attempt number `a`, for `k`
retries. -/
def retrySeq (c : RetryConfig) (e : ε) (rand : Nat → ℚ) (total : Nat) :
    Nat → Nat → List (RetryAttempt ε)
  | _, 0 => []
  | a, k + 1 =>
    { attempt := a + 1, maxAttempts := total
      delayMs := calculateBackoff a c (rand a), error := e } ::
      retrySeq c e rand total (a + 1) k

/-- A stored message that has been dispatched `k` times (and requeued
whenever `rq`). -/
def attemptedMsg (body : β) (id : String) (key : Option String)
    (headers : List (String × String)) (ts : ℤ) (k : Nat) (rq : Bool) :
    StoredMessage β :=
  { id := id, body := body, key := key, headers := headers, timestamp := ts
    deliveryAttempt := k, acknowledged := false, requeued := rq
    deadLettered := false }

/-- A default-capacity queue holding exactly one stored message. -/
def singleQueue (qn : String) (m : StoredMessage β) : MemoryQueue β :=
  { messages := [m], processing := [], queueName := qn, maxMessages := 0
    maxAgeMs := 0 }

/-- The augmented headers `deadLetter` writes for a message dispatched
`k` times. -/
def dlqHeaders (headers : List (String × String)) (qn errMsg deathTime : String)
    (k : Nat) : List (String × String) :=
  headers.filter (fun kv => ¬ kv.1 ∈ ["x-original-queue", "x-death-reason",
    "x-death-time", "x-delivery-attempts"]) ++
  [("x-original-queue", qn), ("x-death-reason", errMsg),
   ("x-death-time", deathTime), ("x-delivery-attempts", toString k)]

mutual
/-- A value containing, at some depth, a plain string matching the ISO
date shape (and denoting a valid date). -/
def hasISO : Value → Bool
  | .str s => isISODateString s
  | .arr xs => hasISOL xs
  | .obj kvs => hasISOK kvs
  | _ => false
/-- Some array element satisfies `hasISO`. -/
def hasISOL : ValueList → Bool
  | .nil => false
  | .cons v tl => hasISO v || hasISOL tl
/-- Some property value satisfies `hasISO`. -/
def hasISOK : ValueKVs → Bool
  | .nil => false
  | .cons _ v tl => hasISO v || hasISOK tl
end

deriving instance DecidableEq for Except

/-! ## Theorems -/

section Lemmas

/-- Capacity behaviour of repeated `enqueue`: starting within capacity,
the final stored sequence is the concatenation with the overflow dropped
from the head. -/
theorem enqueueAll_messages (now : ℤ) :
    ∀ (items : List (β × String)) (q : MemoryQueue β),
      q.maxAgeMs = 0 → 1 ≤ q.maxMessages →
      q.messages.length ≤ q.maxMessages →
      (enqueueAll now q items).messages =
        (q.messages ++ items.map (fun p => mkStored p.1 p.2 now)).drop
          (q.messages.length + items.length - q.maxMessages) := by
  intro items
  induction items with
  | nil =>
    intro q hage hK hlen
    simp [enqueueAll, Nat.sub_eq_zero_of_le hlen]
  | cons p rest ih =>
    intro q hage hK hlen
    obtain ⟨b, id⟩ := p
    have hclean : q.cleanup now = q := by
      simp [MemoryQueue.cleanup, hage]
    set m := mkStored b id now with hm
    set ml := rest.map (fun p => mkStored p.1 p.2 now) with hml
    simp only [List.map_cons, ← hm, ← hml, List.length_cons]
    by_cases hfull : q.messages.length = q.maxMessages
    · -- the appended message overflows: the head is dropped
      obtain ⟨m0, ms, hms⟩ : ∃ m0 ms, q.messages = m0 :: ms := by
        cases hq : q.messages with
        | nil => exfalso; rw [hq] at hfull; simp at hfull; omega
        | cons a l => exact ⟨a, l, rfl⟩
      have hlen2 : ms.length + 1 = q.maxMessages := by
        rw [hms] at hfull; simpa using hfull
      have hstep : (q.enqueue b id now).2 =
          { q with messages := ms ++ [m] } := by
        simp only [MemoryQueue.enqueue, hclean, hms, ← hm, mkStored]
        split
        · simp [hm, mkStored]
        · rename_i hcond
          exfalso
          apply hcond
          refine ⟨by omega, ?_⟩
          simp
          omega
      have ihq := ih { q with messages := ms ++ [m] }
        (by simpa using hage) (by simpa using hK)
        (by simp; omega)
      rw [enqueueAll, hstep]
      calc (enqueueAll now { q with messages := ms ++ [m] } rest).messages
          = ((ms ++ [m]) ++ ml).drop
              ((ms ++ [m]).length + rest.length - q.maxMessages) := by
            simpa using ihq
        _ = (ms ++ m :: ml).drop rest.length := by
            rw [List.append_assoc, List.singleton_append]
            congr 1
            simp
            omega
        _ = (m0 :: (ms ++ m :: ml)).drop (rest.length + 1) := by
            rw [List.drop_succ_cons]
        _ = (q.messages ++ m :: ml).drop
              (q.messages.length + (rest.length + 1) - q.maxMessages) := by
            rw [hms, List.cons_append]
            congr 1
            simp
            omega
    · -- still within capacity: plain append
      have hlt : q.messages.length < q.maxMessages := by omega
      have hstep : (q.enqueue b id now).2 =
          { q with messages := q.messages ++ [m] } := by
        simp only [MemoryQueue.enqueue, hclean, ← hm, mkStored]
        split
        · rename_i hcond
          exfalso
          simp at hcond
          omega
        · simp [hm, mkStored]
      have ihq := ih { q with messages := q.messages ++ [m] }
        (by simpa using hage) (by simpa using hK)
        (by simp; omega)
      rw [enqueueAll, hstep]
      calc (enqueueAll now { q with messages := q.messages ++ [m] } rest).messages
          = ((q.messages ++ [m]) ++ ml).drop
              ((q.messages ++ [m]).length + rest.length - q.maxMessages) := by
            simpa using ihq
        _ = (q.messages ++ m :: ml).drop
              (q.messages.length + (rest.length + 1) - q.maxMessages) := by
            rw [List.append_assoc, List.singleton_append]
            congr 1
            simp
            omega

end Lemmas

/-- C7 — Overflow eviction.  General part: a queue created with
`maxMessages = K ≥ 1` (and no age limit) holds exactly `K` messages after
`K + 1` enqueues, the oldest dropped.  Concrete part: with
`maxMessages = 3` and bodies `0..4`, `size()` is 3 and the first dequeue
yields body `2`. -/
theorem overflow_eviction (name : String) (K : Nat) (hK : 1 ≤ K)
    (items : List (Nat × String)) (hlen : items.length = K + 1) (now : ℤ) :
    ((enqueueAll now (MemoryQueue.mk0 name K 0) items).size = K ∧
     (enqueueAll now (MemoryQueue.mk0 name K 0) items).messages =
       (items.map (fun p => mkStored p.1 p.2 now)).drop 1) ∧
    (((enqueueAll 0 (MemoryQueue.mk0 "limited" 3 0)
        [(0, "m0"), (1, "m1"), (2, "m2"), (3, "m3"), (4, "m4")]).dequeue 0).1.map
          (fun m => m.body) = some 2 ∧
     (enqueueAll 0 (MemoryQueue.mk0 "limited" 3 0)
        [(0, "m0"), (1, "m1"), (2, "m2"), (3, "m3"), (4, "m4")]).size = 3) := by
  have hmsgs := enqueueAll_messages now items (MemoryQueue.mk0 name K 0)
    (by simp [MemoryQueue.mk0]) (by simpa [MemoryQueue.mk0] using hK)
    (by simp [MemoryQueue.mk0])
  simp only [MemoryQueue.mk0, List.nil_append, List.length_nil,
    Nat.zero_add] at hmsgs
  refine ⟨⟨?_, ?_⟩, by decide, by decide⟩
  · rw [MemoryQueue.size]
    simp only [MemoryQueue.mk0]
    rw [hmsgs, List.length_drop]
    simp [hlen]
  · simp only [MemoryQueue.mk0]
    rw [hmsgs, hlen]
    congr 1
    omega

/-- C7 witness: the general part instantiated at `K = 1` with two
enqueued bodies. -/
theorem overflow_eviction_witness :
    ((enqueueAll 0 (MemoryQueue.mk0 "w" 1 0) [(10, "a"), (20, "b")]).size = 1 ∧
     (enqueueAll 0 (MemoryQueue.mk0 "w" 1 0) [(10, "a"), (20, "b")]).messages =
       ([(10, "a"), (20, "b")].map (fun p => mkStored p.1 p.2 0)).drop 1) ∧
    (((enqueueAll 0 (MemoryQueue.mk0 "limited" 3 0)
        [(0, "m0"), (1, "m1"), (2, "m2"), (3, "m3"), (4, "m4")]).dequeue 0).1.map
          (fun m => m.body) = some 2 ∧
     (enqueueAll 0 (MemoryQueue.mk0 "limited" 3 0)
        [(0, "m0"), (1, "m1"), (2, "m2"), (3, "m3"), (4, "m4")]).size = 3) :=
  overflow_eviction "w" 1 (by decide) [(10, "a"), (20, "b")] (by decide) 0

/-- C6 counterexample — the computed delay can exceed `maxDelayMs`: with
`initialDelayMs = 100`, `maxDelayMs = 100`, `multiplier = 2`, jitter on
with the default factor 1/4, attempt 2 and the admissible random draw
9/10 (jitter multiplier 1.2 ∈ [0.75, 1.25]), `exponentialBackoff` returns
120 > 100, because jitter is applied after the cap. -/
theorem backoff_cap_counterexample :
    exponentialBackoff 2
      { initialDelayMs := 100, maxDelayMs := 100, multiplier := 2
        jitter := true, jitterFactor := 1/4 } (9/10) = 120 ∧
    (100 : ℤ) < 120 ∧ (0 : ℚ) ≤ 9/10 ∧ (9/10 : ℚ) < 1 := by
  refine ⟨?_, by decide, by norm_num, by norm_num⟩
  norm_num [exponentialBackoff, applyJitter]

/-- C6 (amended) — Backoff cap with the jitter overshoot: for every
attempt and nonnegative configuration, the exponential backoff delay
(and `calculateDelay` under the default strategy, which dispatches to
it) never exceeds `maxDelayMs` when jitter is off, and never exceeds
`maxDelayMs * (1 + jitterFactor)` when jitter is on with a random draw
in `[0, 1)`. -/
theorem backoff_cap (attempt : Nat) (o : BackoffOptions) (rand : ℚ)
    (hInit : 0 ≤ o.initialDelayMs) (hMax : 0 ≤ o.maxDelayMs)
    (hMult : 0 ≤ o.multiplier) (hFac : 0 ≤ o.jitterFactor)
    (_hR0 : 0 ≤ rand) (hR1 : rand < 1) :
    calculateDelay none attempt o rand = exponentialBackoff attempt o rand ∧
    ((exponentialBackoff attempt o rand : ℚ) ≤
      o.maxDelayMs * (1 + o.jitterFactor)) ∧
    (o.jitter = false → ((exponentialBackoff attempt o rand : ℚ) ≤ o.maxDelayMs)) := by
  refine ⟨rfl, ?_, ?_⟩
  · have hd0 : 0 ≤ min (o.initialDelayMs * o.multiplier ^ (attempt - 1)) o.maxDelayMs := by
      have : 0 ≤ o.initialDelayMs * o.multiplier ^ (attempt - 1) :=
        mul_nonneg hInit (pow_nonneg hMult _)
      exact le_min this hMax
    have hdM : min (o.initialDelayMs * o.multiplier ^ (attempt - 1)) o.maxDelayMs
        ≤ o.maxDelayMs := min_le_right _ _
    set d := min (o.initialDelayMs * o.multiplier ^ (attempt - 1)) o.maxDelayMs with hd
    have hbound : 0 ≤ o.maxDelayMs * (1 + o.jitterFactor) :=
      mul_nonneg hMax (by linarith)
    rw [exponentialBackoff]
    by_cases hj : o.jitter
    · simp only [hj, if_true, ← hd]
      have hjit : applyJitter d o.jitterFactor rand ≤
          o.maxDelayMs * (1 + o.jitterFactor) := by
        rw [applyJitter]
        refine max_le hbound ?_
        nlinarith [mul_nonneg hFac (sub_nonneg.mpr hdM),
          mul_nonneg (mul_nonneg hFac hd0) (sub_nonneg.mpr hR1.le)]
      calc ((Int.floor (applyJitter d o.jitterFactor rand) : ℤ) : ℚ)
          ≤ applyJitter d o.jitterFactor rand := Int.floor_le _
        _ ≤ o.maxDelayMs * (1 + o.jitterFactor) := hjit
    · simp only [hj, if_false, ← hd, Bool.false_eq_true]
      calc ((Int.floor d : ℤ) : ℚ) ≤ d := Int.floor_le _
        _ ≤ o.maxDelayMs := hdM
        _ ≤ o.maxDelayMs * (1 + o.jitterFactor) := by nlinarith
  · intro hj
    rw [exponentialBackoff]
    simp only [hj, Bool.false_eq_true, if_false]
    have hdM : min (o.initialDelayMs * o.multiplier ^ (attempt - 1)) o.maxDelayMs
        ≤ o.maxDelayMs := min_le_right _ _
    calc ((Int.floor (min (o.initialDelayMs * o.multiplier ^ (attempt - 1))
            o.maxDelayMs) : ℤ) : ℚ)
        ≤ _ := Int.floor_le _
      _ ≤ o.maxDelayMs := hdM

/-- C6 witness: the amended bound instantiated at the counterexample's
configuration and draw, where the delay is 120 ≤ 100 · (1 + 1/4). -/
theorem backoff_cap_witness :
    calculateDelay none 2
        { initialDelayMs := 100, maxDelayMs := 100, multiplier := 2
          jitter := true, jitterFactor := 1/4 } (9/10) =
      exponentialBackoff 2
        { initialDelayMs := 100, maxDelayMs := 100, multiplier := 2
          jitter := true, jitterFactor := 1/4 } (9/10) ∧
    ((exponentialBackoff 2
        { initialDelayMs := 100, maxDelayMs := 100, multiplier := 2
          jitter := true, jitterFactor := 1/4 } (9/10) : ℚ) ≤
      (100 : ℚ) * (1 + 1/4)) ∧
    ((true : Bool) = false → ((exponentialBackoff 2
        { initialDelayMs := 100, maxDelayMs := 100, multiplier := 2
          jitter := true, jitterFactor := 1/4 } (9/10) : ℚ) ≤ (100 : ℚ))) :=
  backoff_cap 2
    { initialDelayMs := 100, maxDelayMs := 100, multiplier := 2
      jitter := true, jitterFactor := 1/4 } (9/10)
    (by norm_num) (by norm_num) (by norm_num) (by norm_num)
    (by norm_num) (by norm_num)

section RetryLemmas


/-- Length of the retry call sequence. -/
theorem retrySeq_length (c : RetryConfig) (e : ε) (rand : Nat → ℚ)
    (total : Nat) : ∀ k a, (retrySeq c e rand total a k).length = k := by
  intro k
  induction k with
  | zero => intro a; rfl
  | succ n ih => intro a; simp [retrySeq, ih]

/-- The `attempt` fields of the retry call sequence starting at attempt
`a` are `a + 1, a + 2, ...`. -/
theorem retrySeq_attempts (c : RetryConfig) (e : ε) (rand : Nat → ℚ)
    (total : Nat) :
    ∀ k a, (retrySeq c e rand total a k).map (fun x => x.attempt) =
      (List.range k).map (fun i => a + i + 1) := by
  intro k
  induction k with
  | zero => intro a; rfl
  | succ n ih =>
    intro a
    simp only [retrySeq, List.map_cons, ih, List.range_succ_eq_map,
      List.map_map]
    congr 1
    refine List.map_congr_left ?_
    intro i _
    simp only [Function.comp]
    omega

/-- Shape of a `withRetry` loop run whose operation fails with the same
retryable error on every attempt: it performs all remaining iterations,
records one `onRetry` call per non-final iteration, and ends by
rethrowing the error. -/
theorem withRetryGo_const_fail (α : Type) [Inhabited ε] (c : RetryConfig)
    (p : ε → Bool) (e : ε) (hp : p e = true) (rand : Nat → ℚ) (total : Nat) :
    ∀ (remaining attempt : Nat) (calls : List (RetryAttempt ε)) (made : Nat),
      attempt + remaining = total + 1 → 1 ≤ remaining →
      withRetryGo c p (fun (s : Unit) => ((.error e : Except ε α), s)) rand total
          attempt remaining () calls made =
        { result := .error e, state := (), attemptsMade := made + remaining
          onRetryCalls := calls.reverse ++
            retrySeq c e rand total attempt (remaining - 1) } := by
  intro remaining
  induction remaining with
  | zero => intro attempt calls made _ h1; omega
  | succ r ih =>
    intro attempt calls made hsum _
    cases r with
    | zero =>
      -- final attempt: `isLastAttempt` holds, the error is rethrown
      have hlast : total ≤ attempt := by omega
      simp [withRetryGo, hlast, retrySeq]
    | succ r2 =>
      have hnotlast : ¬ (total ≤ attempt) := by omega
      have hstep : withRetryGo c p
          (fun (s : Unit) => ((.error e : Except ε α), s)) rand total
          attempt (r2 + 1 + 1) () calls made =
          withRetryGo c p (fun (s : Unit) => ((.error e : Except ε α), s)) rand total
            (attempt + 1) (r2 + 1)
            ()
            ({ attempt := attempt + 1, maxAttempts := total
               delayMs := calculateBackoff attempt c (rand attempt)
               error := e } :: calls) (made + 1) := by
        simp [withRetryGo, hnotlast, hp]
      rw [hstep, ih (attempt + 1) _ (made + 1) (by omega) (by omega)]
      congr 1
      · omega
      · simp only [Nat.add_sub_cancel, List.reverse_cons, List.append_assoc,
          List.singleton_append]
        rfl

end RetryLemmas

/-- C3 — Retry exhaustion: under any retry configuration with
`maxRetries = m` and any retryability predicate, an operation failing on
every attempt with a retryable error is invoked exactly `m + 1` times and
the last error is rethrown, while an operation failing with a
non-retryable error is invoked exactly once before the error
propagates. -/
theorem retry_exhaustion [Inhabited ε] (c : RetryConfig) (p : ε → Bool)
    (rand : Nat → ℚ) (eR eN : ε) (hR : p eR = true) (hN : p eN = false) :
    ((withRetry c p (fun (s : Unit) => ((.error eR : Except ε Unit), s)) rand ()).attemptsMade
        = c.maxRetries + 1 ∧
     (withRetry c p (fun (s : Unit) => ((.error eR : Except ε Unit), s)) rand ()).result
        = .error eR) ∧
    ((withRetry c p (fun (s : Unit) => ((.error eN : Except ε Unit), s)) rand ()).attemptsMade
        = 1 ∧
     (withRetry c p (fun (s : Unit) => ((.error eN : Except ε Unit), s)) rand ()).result
        = .error eN) := by
  constructor
  · have h := withRetryGo_const_fail Unit c p eR hR rand (c.maxRetries + 1)
      (c.maxRetries + 1) 1 [] 0 (by omega) (by omega)
    simp only [withRetry]
    rw [h]
    simp
  · simp only [withRetry]
    simp [withRetryGo, hN]

/-- C3 witness: three retries of an always-failing retryable error make
four attempts; a non-retryable error makes one. -/
theorem retry_exhaustion_witness :
    ((withRetry DEFAULT_RETRY_CONFIG (fun b => b)
        (fun (s : Unit) => ((.error true : Except Bool Unit), s)) (fun _ => 0) ()).attemptsMade
        = DEFAULT_RETRY_CONFIG.maxRetries + 1 ∧
     (withRetry DEFAULT_RETRY_CONFIG (fun b => b)
        (fun (s : Unit) => ((.error true : Except Bool Unit), s)) (fun _ => 0) ()).result
        = .error true) ∧
    ((withRetry DEFAULT_RETRY_CONFIG (fun b => b)
        (fun (s : Unit) => ((.error false : Except Bool Unit), s)) (fun _ => 0) ()).attemptsMade
        = 1 ∧
     (withRetry DEFAULT_RETRY_CONFIG (fun b => b)
        (fun (s : Unit) => ((.error false : Except Bool Unit), s)) (fun _ => 0) ()).result
        = .error false) :=
  retry_exhaustion DEFAULT_RETRY_CONFIG (fun b => b) (fun _ => 0) true false
    rfl rfl

/-- C9 — The `onRetry` callback of a perpetually failing retryable run
under `maxRetries = m ≥ 1` is invoked exactly `m` times, and the
`attempt` field it receives is the number of the attempt about to run:
the exact sequence is `[2, 3, ..., m + 1]`. -/
theorem onretry_attempt_sequence [Inhabited ε] (c : RetryConfig)
    (p : ε → Bool) (rand : Nat → ℚ) (e : ε) (hp : p e = true)
    (hm : 1 ≤ c.maxRetries) :
    (withRetry c p (fun (s : Unit) => ((.error e : Except ε Unit), s)) rand ()).onRetryCalls.length
      = c.maxRetries ∧
    (withRetry c p (fun (s : Unit) => ((.error e : Except ε Unit), s)) rand ()).onRetryCalls.map
        (fun a => a.attempt)
      = (List.range c.maxRetries).map (fun i => i + 2) := by
  have h := withRetryGo_const_fail Unit c p e hp rand (c.maxRetries + 1)
    (c.maxRetries + 1) 1 [] 0 (by omega) (by omega)
  simp only [withRetry]
  rw [h]
  simp only [List.reverse_nil, List.nil_append, Nat.add_sub_cancel]
  refine ⟨retrySeq_length c e rand _ _ _, ?_⟩
  rw [retrySeq_attempts]
  refine List.map_congr_left ?_
  intro i _
  omega

/-- C9 witness: with `maxRetries = 3` the `onRetry` attempt sequence is
`[2, 3, 4]`. -/
theorem onretry_attempt_sequence_witness :
    (withRetry DEFAULT_RETRY_CONFIG (fun b => b)
        (fun (s : Unit) => ((.error true : Except Bool Unit), s)) (fun _ => 0) ()).onRetryCalls.length
      = DEFAULT_RETRY_CONFIG.maxRetries ∧
    (withRetry DEFAULT_RETRY_CONFIG (fun b => b)
        (fun (s : Unit) => ((.error true : Except Bool Unit), s)) (fun _ => 0) ()).onRetryCalls.map
        (fun a => a.attempt)
      = (List.range DEFAULT_RETRY_CONFIG.maxRetries).map (fun i => i + 2) :=
  onretry_attempt_sequence DEFAULT_RETRY_CONFIG (fun b => b) (fun _ => 0)
    true rfl (by decide)

section SettlementLemmas

/-- After `Map.delete`, the key is absent. -/
theorem lookup_procDelete (id : String) :
    ∀ (l : List (String × StoredMessage β)),
      (procDelete l id).lookup id = none := by
  intro l
  induction l with
  | nil => rfl
  | cons kv tl ih =>
    obtain ⟨k, v⟩ := kv
    by_cases h : k = id
    · have hstep : procDelete ((k, v) :: tl) id = procDelete tl id := by
        simp [procDelete, List.filter_cons, h]
      rw [hstep]
      exact ih
    · have hstep : procDelete ((k, v) :: tl) id = (k, v) :: procDelete tl id := by
        simp [procDelete, List.filter_cons, h]
      rw [hstep]
      have hne : (id == k) = false := by
        simp [Ne.symm h]
      simp [List.lookup, hne, ih]

/-- Calling `ack` on an id absent from the in-flight map returns false and
changes nothing. -/
theorem ack_of_not_inflight (q : MemoryQueue β) (id : String)
    (h : q.processing.lookup id = none) : q.ack id = (false, q) := by
  simp [MemoryQueue.ack, h]

/-- Calling `nack` on an id absent from the in-flight map returns false and
changes nothing. -/
theorem nack_of_not_inflight (q : MemoryQueue β) (id : String) (rq : Bool)
    (h : q.processing.lookup id = none) : q.nack id rq = (false, q) := by
  simp [MemoryQueue.nack, h]

/-- The id is gone from the in-flight map after a first `ack`. -/
theorem ack_settles (q : MemoryQueue β) (id : String) :
    ((q.ack id).2).processing.lookup id = none := by
  cases hq : q.processing.lookup id with
  | none => simp [MemoryQueue.ack, hq]
  | some m => simp [MemoryQueue.ack, hq, lookup_procDelete]

/-- The id is gone from the in-flight map after a first `nack`. -/
theorem nack_settles (q : MemoryQueue β) (id : String) (rq : Bool) :
    ((q.nack id rq).2).processing.lookup id = none := by
  cases hq : q.processing.lookup id with
  | none => simp [MemoryQueue.nack, hq]
  | some m =>
    by_cases hr : rq <;> simp [MemoryQueue.nack, hq, hr, lookup_procDelete]

end SettlementLemmas

/-- C5 — Settlement idempotence: after a first `ack` (or `nack`), any
repeated settlement — ack after ack, nack after ack, ack after nack,
nack after nack — returns false and leaves the stored sequence and the
in-flight map exactly as the first settlement left them, because
`MemoryQueue.ack`/`nack` change nothing when the id is no longer
in-flight. -/
theorem settlement_idempotent (q : MemoryQueue β) (id : String)
    (rq1 rq2 : Bool) :
    ((q.ack id).2.ack id = (false, (q.ack id).2)) ∧
    ((q.ack id).2.nack id rq2 = (false, (q.ack id).2)) ∧
    ((q.nack id rq1).2.ack id = (false, (q.nack id rq1).2)) ∧
    ((q.nack id rq1).2.nack id rq2 = (false, (q.nack id rq1).2)) :=
  ⟨ack_of_not_inflight _ _ (ack_settles q id),
   nack_of_not_inflight _ _ _ (ack_settles q id),
   ack_of_not_inflight _ _ (nack_settles q id rq1),
   nack_of_not_inflight _ _ _ (nack_settles q id rq1)⟩

section CircuitLemmas

/-- Fast-fail path of an enabled open breaker before the reset timeout,
for a non-zero `lastFailureTime` (a zero timestamp is treated as unset
by the JS truthiness guard and resets immediately): the operation is not
invoked, `CircuitOpenError` is thrown, and the only state changes are
the request counter and the pruned failure log. -/
theorem execute_open_fastfail {σ ε α : Type} (cfg : CircuitBreakerConfig)
    (cb : CircuitBreaker) (now t : ℤ) (op : σ → Except ε α × σ) (st : σ)
    (hen : cfg.enabled = true) (hst : cb.state = .open)
    (hlft : cb.lastFailureTime = some t) (ht : t ≠ 0)
    (hlt : now - t < cfg.resetTimeout) :
    CircuitBreaker.execute cfg cb now op st =
      (.circuitOpen, st,
        { cb with
          totalRequests := cb.totalRequests + 1
          failures := cb.failures.filter
            (fun x => now - cfg.failureWindow < x) }) := by
  have hno : ¬ (cfg.resetTimeout ≤ now - t) := by omega
  simp [CircuitBreaker.execute, hen, cleanOldFailures, hst,
    shouldAttemptReset, hlft, ht, hno]

end CircuitLemmas

/-- C2 counterexample — a fast-failed call does change breaker state
beyond the request counter: with `failureWindow = 10` and
`resetTimeout = 1000`, one failure at time 100 opens the breaker with
failure log `[100]`; the call at time 150 (before the reset timeout)
throws `CircuitOpenError` without running the operation, yet also prunes
the failure log to `[]`. -/
theorem circuit_open_counterexample :
    let cfg : CircuitBreakerConfig :=
      { enabled := true, failureThreshold := 1, failureWindow := 10
        resetTimeout := 1000, successThreshold := 2 }
    let cb1 := (CircuitBreaker.execute cfg .init 100
      (fun (s : Unit) => ((.error () : Except Unit Nat), s)) ()).2.2
    let second := CircuitBreaker.execute cfg cb1 150
      (fun (s : Unit) => ((.ok 7 : Except Unit Nat), s)) ()
    cb1.state = .open ∧ cb1.lastFailureTime = some 100 ∧
    (150 : ℤ) - 100 < cfg.resetTimeout ∧
    second.1 = .circuitOpen ∧
    second.2.2.failures = [] ∧ cb1.failures = [100] ∧
    second.2.2 ≠ { cb1 with totalRequests := cb1.totalRequests + 1 } := by
  decide

/-- C2 (amended) — Open-state behaviour of an enabled breaker whose
`lastFailureTime` is a non-zero timestamp `t`: while
`now − t < resetTimeout` every `execute` call throws `CircuitOpenError`
without invoking the operation (operation state untouched), leaving the
breaker unchanged except for the incremented request counter and the
rolling failure log pruned of entries older than `failureWindow`; once
`now − t ≥ resetTimeout` — or when `t = 0`, which the JS truthiness
guard `!this.lastFailureTime` treats as unset — the next call
transitions to half-open with the success counter reset and does invoke
the operation, whose outcome then drives the success/failure
bookkeeping. -/
theorem circuit_open_fastfail_then_halfopen {σ ε α : Type}
    (cfg : CircuitBreakerConfig) (cb : CircuitBreaker) (now t : ℤ)
    (op : σ → Except ε α × σ) (st : σ) (hen : cfg.enabled = true)
    (hst : cb.state = .open) (hlft : cb.lastFailureTime = some t) :
    (t ≠ 0 → now - t < cfg.resetTimeout →
      CircuitBreaker.execute cfg cb now op st =
        (.circuitOpen, st,
          { cb with
            totalRequests := cb.totalRequests + 1
            failures := cb.failures.filter
              (fun x => now - cfg.failureWindow < x) })) ∧
    (cfg.resetTimeout ≤ now - t ∨ t = 0 →
      CircuitBreaker.execute cfg cb now op st =
        (match op st with
         | (.ok a, st1) =>
           (.ok a, st1, CircuitBreaker.onSuccess cfg
             { cb with
               totalRequests := cb.totalRequests + 1
               failures := cb.failures.filter
                 (fun x => now - cfg.failureWindow < x)
               state := .halfOpen, successes := 0 })
         | (.error e, st1) =>
           (.opError e, st1, CircuitBreaker.onFailure cfg now
             { cb with
               totalRequests := cb.totalRequests + 1
               failures := cb.failures.filter
                 (fun x => now - cfg.failureWindow < x)
               state := .halfOpen, successes := 0 }))) := by
  constructor
  · intro ht hlt
    exact execute_open_fastfail cfg cb now t op st hen hst hlft ht hlt
  · intro hor
    have htrue : (if t = 0 then true
        else decide (cfg.resetTimeout ≤ now - t)) = true := by
      rcases hor with hge | h0
      · by_cases h0 : t = 0
        · simp [h0]
        · simp [h0, hge]
      · simp [h0]
    simp only [CircuitBreaker.execute, hen, Bool.not_true, Bool.false_eq_true,
      if_false, cleanOldFailures, hst, shouldAttemptReset, hlft, htrue,
      if_true]
    rcases hop : op st with ⟨r, st1⟩
    cases r <;> simp [hop]

/-- C2 witness: the amended behaviour instantiated at an open breaker
with `lastFailureTime = 100` called at time 150. -/
theorem circuit_open_fastfail_then_halfopen_witness :
    let cfg : CircuitBreakerConfig :=
      { enabled := true, failureThreshold := 1, failureWindow := 10
        resetTimeout := 1000, successThreshold := 2 }
    let cb : CircuitBreaker :=
      { state := .open, failures := [100], successes := 0
        lastFailureTime := some 100, totalRequests := 1, totalFailures := 1 }
    let op : Unit → Except Unit Nat × Unit := fun s => (.ok 7, s)
    ((100 : ℤ) ≠ 0 → (150 : ℤ) - 100 < cfg.resetTimeout →
      CircuitBreaker.execute cfg cb 150 op () =
        (.circuitOpen, (),
          { cb with
            totalRequests := cb.totalRequests + 1
            failures := cb.failures.filter
              (fun x => 150 - cfg.failureWindow < x) })) ∧
    (cfg.resetTimeout ≤ (150 : ℤ) - 100 ∨ (100 : ℤ) = 0 →
      CircuitBreaker.execute cfg cb 150 op () =
        (match op () with
         | (.ok a, st1) =>
           (.ok a, st1, CircuitBreaker.onSuccess cfg
             { cb with
               totalRequests := cb.totalRequests + 1
               failures := cb.failures.filter
                 (fun x => 150 - cfg.failureWindow < x)
               state := .halfOpen, successes := 0 })
         | (.error e, st1) =>
           (.opError e, st1, CircuitBreaker.onFailure cfg 150
             { cb with
               totalRequests := cb.totalRequests + 1
               failures := cb.failures.filter
                 (fun x => 150 - cfg.failureWindow < x)
               state := .halfOpen, successes := 0 }))) := by
  exact circuit_open_fastfail_then_halfopen _ _ 150 100 _ () rfl rfl rfl

/-- C4 counterexample — publish is not routed through the resilience
wrapper: with the breaker enabled and open (tripped by one failure at
time 100, called again at time 150 before the reset timeout),
`MemoryProducer.publish` still enqueues and returns an id, while the
spec-mandated composition `circuit_breaker.execute(retry.execute(send))`
fast-fails with `CircuitOpenError` and enqueues nothing. -/
theorem publish_resilience_counterexample :
    let cfg : CircuitBreakerConfig :=
      { enabled := true, failureThreshold := 1, failureWindow := 10
        resetTimeout := 1000, successThreshold := 2 }
    let cb1 := (CircuitBreaker.execute cfg .init 100
      (fun (s : Unit) => ((.error () : Except Unit Nat), s)) ()).2.2
    let q : MemoryQueue Nat := MemoryQueue.mk0 "q" 0 0
    let actual := memoryPublish q cb1 42 "id1" 150
    let routed := specPublish cfg DEFAULT_RETRY_CONFIG cb1 150 (fun _ => 0)
      q 42 "id1"
    cb1.state = .open ∧ cb1.lastFailureTime = some 100 ∧
    actual.1 = .ok "id1" ∧ routed.1 = .circuitOpen ∧
    actual.2.1.messages.length = 1 ∧ routed.2.1.messages.length = 0 ∧
    actual ≠ routed := by
  decide

/-- C4 (amended) — `BaseAdapter.executeWithResilience` does compose the
circuit breaker outermost over the retry engine, but the memory
producer's publish does not go through it: whenever the breaker is
enabled, open and within `resetTimeout` of a non-zero last failure time,
`MemoryProducer.publish` still enqueues directly and succeeds while the
composition `circuit_breaker.execute(retry.execute(send))` applied to
the same send fast-fails with `CircuitOpenError` and leaves the queue
untouched. -/
theorem publish_not_routed_through_resilience (cfg : CircuitBreakerConfig)
    (rCfg : RetryConfig) (cb : CircuitBreaker) (now t : ℤ) (rand : Nat → ℚ)
    (q : MemoryQueue β) (body : β) (id : String) (key : Option String)
    (headers : List (String × String)) (hen : cfg.enabled = true)
    (hst : cb.state = .open) (hlft : cb.lastFailureTime = some t)
    (ht : t ≠ 0) (hlt : now - t < cfg.resetTimeout) :
    memoryPublish q cb body id now key headers =
      (.ok id, (q.enqueue body id now key headers).2, cb) ∧
    specPublish cfg rCfg cb now rand q body id key headers =
      (.circuitOpen, q,
        { cb with
          totalRequests := cb.totalRequests + 1
          failures := cb.failures.filter
            (fun x => now - cfg.failureWindow < x) }) := by
  constructor
  · simp [memoryPublish, MemoryQueue.enqueue]
  · rw [specPublish, executeWithResilience]
    exact execute_open_fastfail cfg cb now t _ q hen hst hlft ht hlt

/-- C4 witness: the amended divergence at a concrete open breaker. -/
theorem publish_not_routed_through_resilience_witness :
    let cfg : CircuitBreakerConfig :=
      { enabled := true, failureThreshold := 1, failureWindow := 10
        resetTimeout := 1000, successThreshold := 2 }
    let cb : CircuitBreaker :=
      { state := .open, failures := [100], successes := 0
        lastFailureTime := some 100, totalRequests := 1, totalFailures := 1 }
    let q : MemoryQueue Nat := MemoryQueue.mk0 "q" 0 0
    memoryPublish q cb 42 "id1" 150 none [] =
      (.ok "id1", (q.enqueue 42 "id1" 150 none []).2, cb) ∧
    specPublish cfg DEFAULT_RETRY_CONFIG cb 150 (fun _ => 0) q 42 "id1"
        none [] =
      (.circuitOpen, q,
        { cb with
          totalRequests := cb.totalRequests + 1
          failures := cb.failures.filter
            (fun x => 150 - cfg.failureWindow < x) }) := by
  exact publish_not_routed_through_resilience _ _ _ 150 100 _ _ 42 "id1"
    none [] rfl rfl rfl (by decide) (by decide)

section DlqLemmas


/-- One failing poll below the threshold: the message is nacked back to
the head with its delivery attempt incremented. -/
theorem failingPoll_below (maxDA : Nat) (errMsg qn : String) (body : β)
    (id newId : String) (key : Option String)
    (headers : List (String × String)) (ts now : ℤ) (deathTime : String)
    (dlq : MemoryQueue β) (k : Nat) (rq : Bool) (hk : k + 1 < maxDA) :
    failingPoll maxDA errMsg
        (singleQueue qn (attemptedMsg body id key headers ts k rq)) dlq
        now newId deathTime =
      (singleQueue qn (attemptedMsg body id key headers ts (k + 1) true),
       dlq, false) := by
  have hcond : ¬ (maxDA ≤ k + 1) := by omega
  simp [failingPoll, MemoryQueue.dequeue, MemoryQueue.cleanup, procSet,
    MemoryQueue.nack, List.lookup, procDelete, attemptedMsg, singleQueue,
    hcond]

/-- One failing poll at or above the threshold: the message is removed
from the queue and dead-lettered onto the DLQ with the augmented
headers. -/
theorem failingPoll_hit (maxDA : Nat) (errMsg qn : String) (body : β)
    (id newId : String) (key : Option String)
    (headers : List (String × String)) (ts now : ℤ) (deathTime : String)
    (dlq : MemoryQueue β) (k : Nat) (rq : Bool) (hk : maxDA ≤ k + 1) :
    failingPoll maxDA errMsg
        (singleQueue qn (attemptedMsg body id key headers ts k rq)) dlq
        now newId deathTime =
      ({ messages := [], processing := [], queueName := qn, maxMessages := 0
         maxAgeMs := 0 },
       (dlq.enqueue body newId now key
         (dlqHeaders headers qn errMsg deathTime (k + 1))).2,
       true) := by
  simp [failingPoll, MemoryQueue.dequeue, MemoryQueue.cleanup, procSet,
    MemoryQueue.deadLetter, List.lookup, procDelete, attemptedMsg,
    singleQueue, dlqHeaders, hk]

/-- Peeling one step off the right end of the poll iteration. -/
theorem failingPollIter_succ_right (maxDA : Nat) (errMsg newId deathTime : String)
    (now : ℤ) :
    ∀ (k : Nat) (s : MemoryQueue β × MemoryQueue β × Bool),
      failingPollIter maxDA errMsg now newId deathTime (k + 1) s =
        (let r := failingPollIter maxDA errMsg now newId deathTime k s
         let p := failingPoll maxDA errMsg r.1 r.2.1 now newId deathTime
         (p.1, p.2.1, r.2.2 || p.2.2)) := by
  intro k
  induction k with
  | zero =>
    intro s
    obtain ⟨q, dlq, fired⟩ := s
    simp [failingPollIter]
  | succ n ih =>
    intro s
    obtain ⟨q, dlq, fired⟩ := s
    rw [show failingPollIter maxDA errMsg now newId deathTime (n + 1 + 1)
        (q, dlq, fired) = failingPollIter maxDA errMsg now newId deathTime
          (n + 1)
          ((failingPoll maxDA errMsg q dlq now newId deathTime).1,
           (failingPoll maxDA errMsg q dlq now newId deathTime).2.1,
           fired || (failingPoll maxDA errMsg q dlq now newId deathTime).2.2)
        from by simp [failingPollIter]]
    rw [ih]
    rw [show failingPollIter maxDA errMsg now newId deathTime (n + 1)
        (q, dlq, fired) = failingPollIter maxDA errMsg now newId deathTime n
          ((failingPoll maxDA errMsg q dlq now newId deathTime).1,
           (failingPoll maxDA errMsg q dlq now newId deathTime).2.1,
           fired || (failingPoll maxDA errMsg q dlq now newId deathTime).2.2)
        from by simp [failingPollIter]]

/-- Below the threshold the iteration keeps requeueing: after `k < maxDA`
failing polls the single message is still queued with `deliveryAttempt =
k` and nothing was dead-lettered. -/
theorem failingPollIter_below (maxDA : Nat) (errMsg qn : String) (body : β)
    (id newId : String) (key : Option String)
    (headers : List (String × String)) (ts now : ℤ) (deathTime : String)
    (dlq : MemoryQueue β) :
    ∀ (k : Nat), k < maxDA →
      failingPollIter maxDA errMsg now newId deathTime k
          (singleQueue qn (attemptedMsg body id key headers ts 0 false), dlq,
           false) =
        (singleQueue qn
          (attemptedMsg body id key headers ts k (decide (0 < k))), dlq,
         false) := by
  intro k
  induction k with
  | zero => intro _; simp [failingPollIter]
  | succ n ih =>
    intro hk
    rw [failingPollIter_succ_right, ih (by omega)]
    simp only []
    rw [failingPoll_below maxDA errMsg qn body id newId key headers ts now
      deathTime dlq n (decide (0 < n)) (by omega)]
    simp

end DlqLemmas

/-- C1 — DLQ threshold: for the in-memory consumer with the DLQ-enabled
configuration `maxDeliveryAttempts = N ≥ 1` and a handler that throws on
every invocation, a freshly published message is dead-lettered on exactly
the N-th dispatch: every prefix of `k < N` polls leaves it queued with
`deliveryAttempt = k` and an untouched DLQ (never dead-lettered after
fewer dispatches), while the N-th poll removes it and enqueues its body
onto the DLQ with the dead-letter headers recording `N` attempts. -/
theorem dlq_threshold (N : Nat) (hN : 1 ≤ N) (errMsg qn : String) (body : β)
    (id newId : String) (key : Option String)
    (headers : List (String × String)) (ts now : ℤ) (deathTime : String)
    (dlq0 : MemoryQueue β) :
    (∀ (k : Nat), k < N →
      failingPollIter N errMsg now newId deathTime k
          (singleQueue qn (attemptedMsg body id key headers ts 0 false), dlq0,
           false) =
        (singleQueue qn
          (attemptedMsg body id key headers ts k (decide (0 < k))), dlq0,
         false)) ∧
    failingPollIter N errMsg now newId deathTime N
        (singleQueue qn (attemptedMsg body id key headers ts 0 false), dlq0,
         false) =
      ({ messages := [], processing := [], queueName := qn, maxMessages := 0
         maxAgeMs := 0 },
       (dlq0.enqueue body newId now key
         (dlqHeaders headers qn errMsg deathTime N)).2,
       true) := by
  refine ⟨failingPollIter_below N errMsg qn body id newId key headers ts now
    deathTime dlq0, ?_⟩
  obtain ⟨M, rfl⟩ : ∃ M, N = M + 1 := ⟨N - 1, by omega⟩
  rw [failingPollIter_succ_right]
  rw [failingPollIter_below (M + 1) errMsg qn body id newId key headers ts now
    deathTime dlq0 M (by omega)]
  simp only []
  rw [failingPoll_hit (M + 1) errMsg qn body id newId key headers ts now
    deathTime dlq0 M (decide (0 < M)) (by omega)]
  simp

/-- C1 witness: with `maxDeliveryAttempts = 2`, the first poll requeues
with `deliveryAttempt = 1` and the second poll dead-letters. -/
theorem dlq_threshold_witness :
    (∀ (k : Nat), k < 2 →
      failingPollIter 2 "boom" 100 "dl1" "dt" k
          (singleQueue "q" (attemptedMsg (7 : Nat) "m1" none [] 5 0 false),
           MemoryQueue.mk0 "q-dlq" 0 0, false) =
        (singleQueue "q"
          (attemptedMsg (7 : Nat) "m1" none [] 5 k (decide (0 < k))),
         MemoryQueue.mk0 "q-dlq" 0 0, false)) ∧
    failingPollIter 2 "boom" 100 "dl1" "dt" 2
        (singleQueue "q" (attemptedMsg (7 : Nat) "m1" none [] 5 0 false),
         MemoryQueue.mk0 "q-dlq" 0 0, false) =
      ({ messages := [], processing := [], queueName := "q", maxMessages := 0
         maxAgeMs := 0 },
       ((MemoryQueue.mk0 "q-dlq" 0 0).enqueue (7 : Nat) "dl1" 100 none
         (dlqHeaders [] "q" "boom" "dt" 2)).2,
       true) :=
  dlq_threshold 2 (by decide) "boom" "q" 7 "m1" "dl1" none [] 5 100 "dt"
    (MemoryQueue.mk0 "q-dlq" 0 0)

/-- C8 — The `__type: date` envelope is never emitted: because
`JSON.stringify` runs `Date.prototype.toJSON` before the replacer, every
`Date` serializes to its plain ISO string under all options, and on the
concrete payload `{createdAt: new Date("2024-01-15T10:30:00.000Z")}` the
default serializer emits the plain string rather than the documented
`{ "__type": "date", "value": <ISO> }` object. -/
theorem date_encoding_bug :
    (∀ (o : JsonSerializerOptions) (ms : ℤ),
      serializeV o (.date ms) = .ok (.str (toISOString ms))) ∧
    serializeV {} (.obj (.cons "createdAt" (.date 1705314600000) .nil)) =
      .ok (.obj (.cons "createdAt" (.str "2024-01-15T10:30:00.000Z") .nil)) ∧
    serializeV {} (.obj (.cons "createdAt" (.date 1705314600000) .nil)) ≠
      .ok (.obj (.cons "createdAt"
        (.obj (.cons "__type" (.str "date")
          (.cons "value" (.str "2024-01-15T10:30:00.000Z") .nil))) .nil)) := by
  exact ⟨fun o ms => rfl, by decide, by decide⟩

section RevivalLemmas

/-- Evaluating `BigInt(x)` never yields a plain object. -/
theorem jsBigInt_not_obj (x : Option Value) (kvs : ValueKVs) :
    jsBigInt x ≠ .ok (.obj kvs) := by
  match x with
  | none => simp [jsBigInt]
  | some .null => simp [jsBigInt]
  | some (.bool b) => simp [jsBigInt]
  | some (.num q) =>
    by_cases h : q.den = 1 <;> simp [jsBigInt, h]
  | some (.str s) =>
    cases h : strToBigInt s <;> simp [jsBigInt, h]
  | some (.bigint n) => simp [jsBigInt]
  | some (.date ms) => simp [jsBigInt]
  | some .invalidDate => simp [jsBigInt]
  | some (.arr xs) => simp [jsBigInt]
  | some (.obj kvs2) => simp [jsBigInt]

/-- Evaluating `new Date(x)` never yields a plain object. -/
theorem jsNewDate_not_obj (tz : ℤ) (x : Option Value) (kvs : ValueKVs) :
    jsNewDate tz x ≠ .ok (.obj kvs) := by
  match x with
  | none => simp [jsNewDate]
  | some .null => simp [jsNewDate]
  | some (.bool b) => simp [jsNewDate]
  | some (.num q) =>
    by_cases h : (ratTrunc q).natAbs ≤ 8640000000000000 <;> simp [jsNewDate, h]
  | some (.str s) =>
    cases h : parseISO s with
    | none => simp [jsNewDate, h]
    | some p => by_cases hv : validParts p <;> simp [jsNewDate, h, hv]
  | some (.bigint n) => simp [jsNewDate]
  | some (.date ms) => simp [jsNewDate]
  | some .invalidDate => simp [jsNewDate]
  | some (.arr xs) => simp [jsNewDate]
  | some (.obj kvs2) => simp [jsNewDate]

/-- The reviver step on an object either returns the object unchanged or
produces something that is not a plain object. -/
theorem reviveObjStep_shape (o : JsonSerializerOptions) (tz : ℤ)
    (kvs : ValueKVs) :
    reviveObjStep o tz kvs = .ok (.obj kvs) ∨
    (∀ (kvs2 : ValueKVs), reviveObjStep o tz kvs ≠ .ok (.obj kvs2)) := by
  cases hl : kvLookup kvs "__type" with
  | none =>
    left
    simp [reviveObjStep, hl]
  | some v =>
    match v with
    | .null | .bool _ | .num _ | .bigint _ | .date _ | .invalidDate
    | .arr _ | .obj _ =>
      left
      simp [reviveObjStep, hl]
    | .str t =>
      by_cases h1 : o.handleBigInt && t = "bigint"
      · right
        intro kvs2
        simp only [reviveObjStep, hl, h1, if_true]
        exact jsBigInt_not_obj _ kvs2
      · by_cases h2 : o.handleDates && t = "date"
        · right
          intro kvs2
          simp only [reviveObjStep, hl, h1, Bool.false_eq_true, if_false,
            h2, if_true]
          exact jsNewDate_not_obj tz _ kvs2
        · left
          simp [reviveObjStep, hl, h1, h2]

end RevivalLemmas


mutual
/-- Serialize-then-deserialize is not the identity on any value that
contains a plain ISO date string (date handling on). -/
theorem roundtrip_ne_of_hasISO (o : JsonSerializerOptions) (tz : ℤ)
    (hD : o.handleDates = true) :
    ∀ (v : Value), hasISO v = true → jsonRoundtrip o tz v ≠ .ok v
  | .str s, h => by
    have hh : isISODateString s = true := by simpa [hasISO] using h
    cases hps : parseISO s with
    | none =>
      rw [isISODateString, hps] at hh
      exact absurd hh (by simp)
    | some p =>
      simp [jsonRoundtrip, serializeV, reviveJ, reviveString, hD, hh, hps]
  | .arr xs, h => by
    have hl : hasISOL xs = true := by simpa [hasISO] using h
    intro hcontra
    cases hsl : serializeL o xs with
    | error e =>
      rw [jsonRoundtrip] at hcontra
      simp only [serializeV, hsl] at hcontra
      exact Except.noConfusion hcontra
    | ok js =>
      rw [jsonRoundtrip] at hcontra
      simp only [serializeV, hsl] at hcontra
      cases hr : reviveL o tz js with
      | error e =>
        simp only [reviveJ, hr] at hcontra
        exact Except.noConfusion hcontra
      | ok vs =>
        simp only [reviveJ, hr, Except.ok.injEq, Value.arr.injEq] at hcontra
        exact roundtrip_ne_l o tz hD xs hl js hsl (hcontra ▸ hr)
  | .obj kvs, h => by
    have hk : hasISOK kvs = true := by simpa [hasISO] using h
    intro hcontra
    cases hsk : serializeKV o kvs with
    | error e =>
      rw [jsonRoundtrip] at hcontra
      simp only [serializeV, hsk] at hcontra
      exact Except.noConfusion hcontra
    | ok jkvs =>
      rw [jsonRoundtrip] at hcontra
      simp only [serializeV, hsk] at hcontra
      cases hr : reviveKV o tz jkvs with
      | error e =>
        simp only [reviveJ, hr] at hcontra
        exact Except.noConfusion hcontra
      | ok vkvs =>
        simp only [reviveJ, hr] at hcontra
        rcases reviveObjStep_shape o tz vkvs with hsh | hsh
        · rw [hsh] at hcontra
          have hvk : vkvs = kvs := by
            simpa using hcontra
          exact roundtrip_ne_k o tz hD kvs hk jkvs hsk (hvk ▸ hr)
        · exact hsh kvs hcontra
/-- List version: if some element contains an ISO date string, revival of
the serialized list cannot reproduce the original list. -/
theorem roundtrip_ne_l (o : JsonSerializerOptions) (tz : ℤ)
    (hD : o.handleDates = true) :
    ∀ (xs : ValueList), hasISOL xs = true →
      ∀ (js : JsonList), serializeL o xs = .ok js →
        reviveL o tz js ≠ .ok xs
  | .cons v tl, h => by
    intro js hsl hcontra
    cases hv : serializeV o v with
    | error e =>
      simp only [serializeL, hv] at hsl
      exact Except.noConfusion hsl
    | ok j =>
      cases htl : serializeL o tl with
      | error e =>
        simp only [serializeL, hv, htl] at hsl
        exact Except.noConfusion hsl
      | ok js2 =>
        simp only [serializeL, hv, htl, Except.ok.injEq] at hsl
        subst hsl
        cases hrj : reviveJ o tz j with
        | error e =>
          simp only [reviveL, hrj] at hcontra
          exact Except.noConfusion hcontra
        | ok w =>
          cases hrtl : reviveL o tz js2 with
          | error e =>
            simp only [reviveL, hrj, hrtl] at hcontra
            exact Except.noConfusion hcontra
          | ok ws =>
            simp only [reviveL, hrj, hrtl, Except.ok.injEq,
              ValueList.cons.injEq] at hcontra
            obtain ⟨hw, hws⟩ := hcontra
            rcases Bool.or_eq_true_iff.mp (by simpa [hasISOL] using h) with
              h1 | h1
            · refine roundtrip_ne_of_hasISO o tz hD v h1 ?_
              rw [jsonRoundtrip]
              simp only [hv]
              rw [hrj, hw]
            · exact roundtrip_ne_l o tz hD tl h1 js2 htl (hws ▸ hrtl)
/-- Object-member version of the same statement. -/
theorem roundtrip_ne_k (o : JsonSerializerOptions) (tz : ℤ)
    (hD : o.handleDates = true) :
    ∀ (kvs : ValueKVs), hasISOK kvs = true →
      ∀ (jkvs : JsonKVs), serializeKV o kvs = .ok jkvs →
        reviveKV o tz jkvs ≠ .ok kvs
  | .cons k v tl, h => by
    intro jkvs hsk hcontra
    cases hv : serializeV o v with
    | error e =>
      simp only [serializeKV, hv] at hsk
      exact Except.noConfusion hsk
    | ok j =>
      cases htl : serializeKV o tl with
      | error e =>
        simp only [serializeKV, hv, htl] at hsk
        exact Except.noConfusion hsk
      | ok js2 =>
        simp only [serializeKV, hv, htl, Except.ok.injEq] at hsk
        subst hsk
        cases hrj : reviveJ o tz j with
        | error e =>
          simp only [reviveKV, hrj] at hcontra
          exact Except.noConfusion hcontra
        | ok w =>
          cases hrtl : reviveKV o tz js2 with
          | error e =>
            simp only [reviveKV, hrj, hrtl] at hcontra
            exact Except.noConfusion hcontra
          | ok ws =>
            simp only [reviveKV, hrj, hrtl, Except.ok.injEq,
              ValueKVs.cons.injEq] at hcontra
            obtain ⟨_, hw, hws⟩ := hcontra
            rcases Bool.or_eq_true_iff.mp (by simpa [hasISOK] using h) with
              h1 | h1
            · refine roundtrip_ne_of_hasISO o tz hD v h1 ?_
              rw [jsonRoundtrip]
              simp only [hv]
              rw [hrj, hw]
            · exact roundtrip_ne_k o tz hD tl h1 js2 htl (hws ▸ hrtl)
end

/-- C10 — With date handling on (the default), the reviver turns every
standalone JSON string matching the ISO shape
`YYYY-MM-DDTHH:MM:SS(.sss)?Z?` that denotes a valid date into a `Date`
in its place, and consequently `deserialize(serialize(x))` differs from
`x` for every payload containing such a plain string. -/
theorem iso_string_revival (o : JsonSerializerOptions) (tz : ℤ)
    (hD : o.handleDates = true) (s : String) (hs : isISODateString s = true)
    (x : Value) (hx : hasISO x = true) :
    (∃ p, parseISO s = some p ∧
      reviveJ o tz (.str s) = .ok (.date (msOfParts tz p))) ∧
    jsonRoundtrip o tz x ≠ .ok x := by
  constructor
  · cases hps : parseISO s with
    | none =>
      rw [isISODateString, hps] at hs
      exact absurd hs (by simp)
    | some p =>
      exact ⟨p, rfl, by simp [reviveJ, reviveString, hD, hs, hps]⟩
  · exact roundtrip_ne_of_hasISO o tz hD x hx

/-- C10 witness: the payload `{t: "2024-01-15T10:30:00.000Z"}` (a plain
string) does not round-trip — the string comes back as a `Date`. -/
theorem iso_string_revival_witness :
    (∃ p, parseISO "2024-01-15T10:30:00.000Z" = some p ∧
      reviveJ {} 0 (.str "2024-01-15T10:30:00.000Z") =
        .ok (.date (msOfParts 0 p))) ∧
    jsonRoundtrip {} 0
        (.obj (.cons "t" (.str "2024-01-15T10:30:00.000Z") .nil)) ≠
      .ok (.obj (.cons "t" (.str "2024-01-15T10:30:00.000Z") .nil)) :=
  iso_string_revival {} 0 rfl "2024-01-15T10:30:00.000Z" (by decide)
    (.obj (.cons "t" (.str "2024-01-15T10:30:00.000Z") .nil)) (by decide)

end AnyQ
